import Mathlib

/-
  Shallow embedding of the vertex-ai-agents repository fragments under
  verification: the OIDC token cache (TokenManager, get_gcp_auth_headers),
  the A2A remote connection send loop (RemoteAgentConnections.send_message,
  three copies), the orchestrator routing tool (AdkOrchestratorAgent), and
  the A2A task lifecycle driver (AdkBaseMcpAgentExecutor.execute).

  Machine time (time.time in the source) is modelled by Int; Python dict
  objects holding a fixed key set become structures with Option fields;
  Python dicts with dynamic keys become association lists; raising becomes
  Except; the external OIDC fetch and the remote A2A client become explicit
  parameters of the functions that call them.
-/

namespace VertexAgents

/-- Python truthiness of a string: falsy exactly when empty. -/
def strTruthy (s : String) : Bool := !(s == "")

/-- Python truthiness of an optional string: falsy when None or empty. -/
def optStrTruthy : Option String → Bool
  | none => false
  | some s => strTruthy s

/-- A header dictionary, as an association list of header name and value. -/
abbrev Headers := List (String × String)

/-
  get_gcp_auth_headers (adk_base_mcp_agent_executor.py lines 44-87).
  The call google_id_token.fetch_id_token either yields a token string or
  raises; that outcome is the explicit fetch parameter. On success the
  function returns the single Authorization header; every exception path
  falls through to return the empty dict.
-/
def get_gcp_auth_headers (fetch : Except String String) : Headers :=
  match fetch with
  | Except.ok token => [("Authorization", "Bearer " ++ token)]
  | Except.error _ => []

/-
  TokenManager (adk_base_mcp_agent_executor.py lines 123-168).
-/
structure TokenManager where
  audience : String
  refresh_buffer_seconds : Int
  _token : Option String
  _expiry : Option Int
deriving DecidableEq

/-- Default value of refresh_buffer_seconds in TokenManager.__init__. -/
def defaultRefreshBufferSeconds : Int := 300

/-- TokenManager.__init__: token and expiry start as None. -/
def TokenManager.init (audience : String) (refresh_buffer_seconds : Int) :
    TokenManager :=
  { audience := audience, refresh_buffer_seconds := refresh_buffer_seconds,
    _token := none, _expiry := none }

/-- The refresh condition of get_headers: the token is None, or the expiry
is None, or current_time is at least the stored expiry (the or chain
short-circuits, so the comparison only happens with a non-None expiry). -/
def needsRefreshCond (tm : TokenManager) (current_time : Int) : Bool :=
  tm._token.isNone || tm._expiry.isNone ||
    (match tm._expiry with
     | some e => decide (current_time ≥ e)
     | none => true)

/-- The refresh branch of get_headers (lines 147-161): on a truthy
Authorization header, store it and set the expiry to
current_time + 3600 - refresh_buffer_seconds; otherwise clear both. -/
def refreshStep (tm : TokenManager) (current_time : Int) (headers : Headers) :
    TokenManager :=
  let auth_header := headers.lookup "Authorization"
  if optStrTruthy auth_header then
    { tm with _token := auth_header,
              _expiry := some (current_time + 3600 - tm.refresh_buffer_seconds) }
  else
    { tm with _token := none, _expiry := none }

/-- The final return of get_headers: the Authorization dict when the stored
token is truthy, else the empty dict. -/
def tokenHeader : Option String → Headers
  | some t => if strTruthy t then [("Authorization", t)] else []
  | none => []

/-- TokenManager.get_headers: refresh when needed, then return the header
built from the (possibly updated) stored token, together with the updated
manager state. -/
def TokenManager.get_headers (tm : TokenManager) (current_time : Int)
    (fetch : Except String String) : Headers × TokenManager :=
  let tm2 :=
    if needsRefreshCond tm current_time then
      refreshStep tm current_time (get_gcp_auth_headers fetch)
    else tm
  (tokenHeader tm2._token, tm2)

/-- Claim C1: get_headers is a refresh-on-read cache. With a cached
non-empty token and a stored expiry strictly after the current time it
returns the cached Authorization header and leaves the state unchanged, for
every possible fetch outcome (so the fetch is not consulted); it applies
the refresh step to the result of get_gcp_auth_headers exactly when the
token is None, the expiry is None, or the current time has reached the
expiry; and outside the refresh condition the result never depends on the
fetch outcome. -/
theorem c1_get_headers_cache (tm : TokenManager) (current_time : Int)
    (fetch : Except String String) :
    (∀ t e, tm._token = some t → t ≠ "" → tm._expiry = some e →
      current_time < e →
      tm.get_headers current_time fetch = ([("Authorization", t)], tm))
    ∧ ((tm._token = none ∨ tm._expiry = none ∨
        (∃ e, tm._expiry = some e ∧ e ≤ current_time)) →
      tm.get_headers current_time fetch =
        (tokenHeader (refreshStep tm current_time (get_gcp_auth_headers fetch))._token,
         refreshStep tm current_time (get_gcp_auth_headers fetch)))
    ∧ (tm._token ≠ none → tm._expiry ≠ none →
        (∀ e, tm._expiry = some e → current_time < e) →
      tm.get_headers current_time fetch = (tokenHeader tm._token, tm)) := by
  refine ⟨?_, ?_, ?_⟩
  · intro t e htok ht hexp hlt
    have hcond : needsRefreshCond tm current_time = false := by
      simp [needsRefreshCond, htok, hexp]
      omega
    simp [TokenManager.get_headers, hcond, htok, tokenHeader, strTruthy, ht]
  · intro h
    have hcond : needsRefreshCond tm current_time = true := by
      rcases h with h | h | ⟨e, he, hle⟩
      · simp [needsRefreshCond, h]
      · simp [needsRefreshCond, h]
      · simp [needsRefreshCond, he]
        omega
    simp [TokenManager.get_headers, hcond]
  · intro htok hexp hlt
    have hcond : needsRefreshCond tm current_time = false := by
      rcases h1 : tm._token with _ | t
      · exact absurd h1 htok
      rcases h2 : tm._expiry with _ | e
      · exact absurd h2 hexp
      have := hlt e h2
      simp [needsRefreshCond, h1, h2]
      omega
    simp [TokenManager.get_headers, hcond]

/-- Witness for C1 at a concrete manager holding token tk with expiry 100,
read at time 50 while the fetch would fail. -/
theorem c1_witness :
    (TokenManager.mk "aud" 300 (some "tk") (some 100)).get_headers 50
      (Except.error "down") = ([("Authorization", "tk")], TokenManager.mk "aud" 300 (some "tk") (some 100)) :=
  (c1_get_headers_cache (TokenManager.mk "aud" 300 (some "tk") (some 100)) 50
    (Except.error "down")).1 "tk" 100 rfl (by decide) rfl (by decide)

/-- Claim C7: get_gcp_auth_headers never raises (it is a total function in
the embedding): a successful token fetch yields the Bearer Authorization
header and any exception during the fetch yields the empty dict. -/
theorem c7_get_gcp_auth_headers_total (fetch : Except String String) :
    (∀ tok, fetch = Except.ok tok →
      get_gcp_auth_headers fetch = [("Authorization", "Bearer " ++ tok)])
    ∧ (∀ msg, fetch = Except.error msg → get_gcp_auth_headers fetch = []) := by
  constructor
  · intro tok h
    simp [get_gcp_auth_headers, h]
  · intro msg h
    simp [get_gcp_auth_headers, h]

/-- Witness for C7 at a successful fetch of token abc and at a failed
fetch. -/
theorem c7_witness :
    get_gcp_auth_headers (Except.ok "abc") = [("Authorization", "Bearer abc")]
    ∧ get_gcp_auth_headers (Except.error "no creds") = [] :=
  ⟨(c7_get_gcp_auth_headers_total (Except.ok "abc")).1 "abc" rfl,
   (c7_get_gcp_auth_headers_total (Except.error "no creds")).2 "no creds" rfl⟩

/-- The Bearer prefix makes every stored Authorization value non-empty. -/
theorem bearer_ne_empty (tok : String) : ("Bearer " ++ tok) ≠ "" := by
  intro h
  have := congrArg String.length h
  simp [String.length_append] at this
  exact absurd this.1 (by decide)

/-- Claim C9: when the refresh condition holds and the fetch succeeds, the
new expiry is current_time + 3600 - refresh_buffer_seconds, independent of
the actual token lifetime; with the default buffer of 300 seconds this is
current_time + 3300. -/
theorem c9_refresh_sets_fixed_expiry (tm : TokenManager) (current_time : Int)
    (tok : String) (h : needsRefreshCond tm current_time = true) :
    ((tm.get_headers current_time (Except.ok tok)).2)._expiry
      = some (current_time + 3600 - tm.refresh_buffer_seconds)
    ∧ (tm.refresh_buffer_seconds = defaultRefreshBufferSeconds →
        ((tm.get_headers current_time (Except.ok tok)).2)._expiry
          = some (current_time + 3300)) := by
  have htrue : optStrTruthy (some ("Bearer " ++ tok)) = true := by
    simp [optStrTruthy, strTruthy, bearer_ne_empty tok]
  constructor
  · simp [TokenManager.get_headers, h, refreshStep, get_gcp_auth_headers, htrue]
  · intro hb
    simp [TokenManager.get_headers, h, refreshStep, get_gcp_auth_headers, htrue,
      hb, defaultRefreshBufferSeconds]
    omega

/-- Witness for C9: a fresh manager with the default buffer, refreshed at
time 1000, stores expiry 4300. -/
theorem c9_witness :
    needsRefreshCond (TokenManager.init "aud" defaultRefreshBufferSeconds) 1000 = true
    ∧ (((TokenManager.init "aud" defaultRefreshBufferSeconds).get_headers 1000
        (Except.ok "tok")).2)._expiry = some (1000 + 3600 - defaultRefreshBufferSeconds) :=
  ⟨by decide,
   (c9_refresh_sets_fixed_expiry (TokenManager.init "aud" defaultRefreshBufferSeconds)
      1000 "tok" (by decide)).1⟩

/-- Claim C10: when a refresh is attempted and get_gcp_auth_headers yields
no Authorization header (the fetch raised), get_headers clears both the
cached token and the expiry and returns the empty dict, so a stale cached
token is never served after a failed refresh. -/
theorem c10_failed_refresh_clears (tm : TokenManager) (current_time : Int)
    (msg : String) (h : needsRefreshCond tm current_time = true) :
    tm.get_headers current_time (Except.error msg)
      = ([], { tm with _token := none, _expiry := none }) := by
  simp [TokenManager.get_headers, h, refreshStep, get_gcp_auth_headers,
    optStrTruthy, tokenHeader]

/-- Witness for C10: a manager with an already expired token at read time
500 fails its refresh and ends with no token, no expiry and the empty
dict. -/
theorem c10_witness :
    needsRefreshCond (TokenManager.mk "aud" 300 (some "old") (some 400)) 500 = true
    ∧ (TokenManager.mk "aud" 300 (some "old") (some 400)).get_headers 500
        (Except.error "boom")
      = ([], { TokenManager.mk "aud" 300 (some "old") (some 400) with
               _token := none, _expiry := none }) :=
  ⟨by decide,
   c10_failed_refresh_clears (TokenManager.mk "aud" 300 (some "old") (some 400))
     500 "boom" (by decide)⟩

/-
  Data model of the a2a.types objects the repository manipulates.
-/

/-- TaskState from a2a.types. -/
inductive TaskState where
  | submitted
  | working
  | input_required
  | completed
  | canceled
  | failed
  | rejected
  | auth_required
  | unknown
deriving DecidableEq

/-- Role from a2a.types. -/
inductive Role where
  | user
  | agent
deriving DecidableEq

/-- A message or artifact part. The text, data and file kinds are the ones
convert_part handles; other covers any further kind string. -/
inductive Part where
  | text (text : String)
  | data (data : String)
  | file (name : String) (bytes : String) (mime_type : String)
  | other (kind : String)
deriving DecidableEq

/-- Message from a2a.types, restricted to the fields the repository reads
or writes. -/
structure Message where
  role : Role
  parts : List Part
  message_id : String
  context_id : Option String
  task_id : Option String
deriving DecidableEq

/-- An artifact attached to a task. -/
structure Artifact where
  parts : List Part
deriving DecidableEq

/-- TaskStatus from a2a.types: the state plus an optional status message. -/
structure TaskStatus where
  state : TaskState
  message : Option Message
deriving DecidableEq

/-- Task from a2a.types, restricted to the fields the repository reads. -/
structure Task where
  id : String
  context_id : Option String
  status : TaskStatus
  artifacts : Option (List Artifact)
deriving DecidableEq

/-- One event yielded by Client.send_message of the A2A SDK: either a
Message, or a tuple whose first component is a Task (the repository only
reads event[0] of the tuple). -/
inductive A2AEvent where
  | message (m : Message)
  | taskEvent (t : Task)
deriving DecidableEq

/-- Exceptions are modelled by their description. -/
abbrev Exn := String

/-
  RemoteAgentConnections.send_message, copy 1:
  a2a-on-ae-multiagent/a2a_multiagent_mcp_app/a2a_agents/common/remote_connection.py
  lines 57-103. The stream of events the underlying client yields is the
  events list; exn is the exception raised when the stream is exhausted
  without an early return (none when the stream ends normally).
-/

namespace CommonConn

def is_terminal_or_interrupted (task : Task) : Bool :=
  [TaskState.completed, TaskState.canceled, TaskState.failed,
   TaskState.input_required, TaskState.unknown].contains task.status.state

def sendLoop (lastTask : Option Task) (events : List A2AEvent)
    (exn : Option Exn) : Except Exn (Option (Task ⊕ Message)) :=
  match events with
  | [] =>
    match exn with
    | some e => Except.error e
    | none => Except.ok (lastTask.map Sum.inl)
  | A2AEvent.message m :: _ => Except.ok (some (Sum.inr m))
  | A2AEvent.taskEvent t :: rest =>
    if is_terminal_or_interrupted t then Except.ok (some (Sum.inl t))
    else sendLoop (some t) rest exn

def send_message (events : List A2AEvent) (exn : Option Exn) :
    Except Exn (Option (Task ⊕ Message)) :=
  sendLoop none events exn

end CommonConn

/-
  RemoteAgentConnections.send_message, copy 2:
  a2a-on-ae-multiagent_langgraph/a2a_multiagent_mcp_app/a2a_agents/hosting_agent/remote_connection.py
  lines 50-74. Identical control flow; it logs with print and re-raises
  with raise e.
-/

namespace LanggraphConn

def is_terminal_or_interrupted (task : Task) : Bool :=
  [TaskState.completed, TaskState.canceled, TaskState.failed,
   TaskState.input_required, TaskState.unknown].contains task.status.state

def sendLoop (lastTask : Option Task) (events : List A2AEvent)
    (exn : Option Exn) : Except Exn (Option (Task ⊕ Message)) :=
  match events with
  | [] =>
    match exn with
    | some e => Except.error e
    | none => Except.ok (lastTask.map Sum.inl)
  | A2AEvent.message m :: _ => Except.ok (some (Sum.inr m))
  | A2AEvent.taskEvent t :: rest =>
    if is_terminal_or_interrupted t then Except.ok (some (Sum.inl t))
    else sendLoop (some t) rest exn

def send_message (events : List A2AEvent) (exn : Option Exn) :
    Except Exn (Option (Task ⊕ Message)) :=
  sendLoop none events exn

end LanggraphConn

/-
  RemoteAgentConnections.send_message, copy 3:
  a2a-on-ae-multiagent/a2a_multiagent_mcp_app/a2a_agents/hosting_agent_option1/remote_connection.py
  lines 45-85. Identical control flow; it logs with print.
-/

namespace Option1Conn

def is_terminal_or_interrupted (task : Task) : Bool :=
  [TaskState.completed, TaskState.canceled, TaskState.failed,
   TaskState.input_required, TaskState.unknown].contains task.status.state

def sendLoop (lastTask : Option Task) (events : List A2AEvent)
    (exn : Option Exn) : Except Exn (Option (Task ⊕ Message)) :=
  match events with
  | [] =>
    match exn with
    | some e => Except.error e
    | none => Except.ok (lastTask.map Sum.inl)
  | A2AEvent.message m :: _ => Except.ok (some (Sum.inr m))
  | A2AEvent.taskEvent t :: rest =>
    if is_terminal_or_interrupted t then Except.ok (some (Sum.inl t))
    else sendLoop (some t) rest exn

def send_message (events : List A2AEvent) (exn : Option Exn) :
    Except Exn (Option (Task ⊕ Message)) :=
  sendLoop none events exn

end Option1Conn

/-- The three copies of the inner loop agree, event list by event list. -/
theorem sendLoop_copies_eq (lastTask : Option Task) (events : List A2AEvent)
    (exn : Option Exn) :
    CommonConn.sendLoop lastTask events exn = LanggraphConn.sendLoop lastTask events exn
    ∧ CommonConn.sendLoop lastTask events exn = Option1Conn.sendLoop lastTask events exn := by
  induction events generalizing lastTask with
  | nil =>
    simp [CommonConn.sendLoop, LanggraphConn.sendLoop, Option1Conn.sendLoop]
  | cons ev rest ih =>
    cases ev with
    | message m =>
      simp [CommonConn.sendLoop, LanggraphConn.sendLoop, Option1Conn.sendLoop]
    | taskEvent t =>
      by_cases h : CommonConn.is_terminal_or_interrupted t = true
      · have h2 : LanggraphConn.is_terminal_or_interrupted t = true := h
        have h3 : Option1Conn.is_terminal_or_interrupted t = true := h
        simp [CommonConn.sendLoop, LanggraphConn.sendLoop, Option1Conn.sendLoop,
          h, h2, h3]
      · have h2 : LanggraphConn.is_terminal_or_interrupted t = false := by
          simpa using h
        have h3 : Option1Conn.is_terminal_or_interrupted t = false := by
          simpa using h
        have h1 : CommonConn.is_terminal_or_interrupted t = false := by
          simpa using h
        simp [CommonConn.sendLoop, LanggraphConn.sendLoop, Option1Conn.sendLoop,
          h1, h2, h3]
        exact ih (some t)

/-- Claim C5: the three near-duplicate copies of send_message and
is_terminal_or_interrupted are extensionally equal: on every event stream
and exception outcome they return the same value and raise the same
exception, and the terminal-state predicate agrees on every task. -/
theorem c5_copies_extensionally_equal (events : List A2AEvent) (exn : Option Exn) :
    CommonConn.send_message events exn = LanggraphConn.send_message events exn
    ∧ CommonConn.send_message events exn = Option1Conn.send_message events exn
    ∧ (∀ t : Task,
        CommonConn.is_terminal_or_interrupted t = LanggraphConn.is_terminal_or_interrupted t
        ∧ CommonConn.is_terminal_or_interrupted t = Option1Conn.is_terminal_or_interrupted t) := by
  refine ⟨?_, ?_, ?_⟩
  · exact (sendLoop_copies_eq none events exn).1
  · exact (sendLoop_copies_eq none events exn).2
  · intro t
    exact ⟨rfl, rfl⟩

/-- An event on which the send loop returns immediately: any Message, or a
task event whose task is terminal or interrupted. -/
def earlyReturn (ev : A2AEvent) : Bool :=
  match ev with
  | A2AEvent.message _ => true
  | A2AEvent.taskEvent t => CommonConn.is_terminal_or_interrupted t

/-- The task carried by an event, if any. -/
def taskOf : A2AEvent → Option Task
  | A2AEvent.message _ => none
  | A2AEvent.taskEvent t => some t

/-- getLast? of a cons prefers the last element of the tail. -/
theorem getLast?_cons_or {α : Type} (a : α) (l : List α) :
    (a :: l).getLast? = Option.or l.getLast? (some a) := by
  induction l generalizing a with
  | nil => simp
  | cons b m ih =>
    rw [List.getLast?_cons_cons, ih b]
    cases h : m.getLast? <;> simp [Option.or]

/-- The send loop, characterized as a scan: it returns at the first event
matched by earlyReturn, and otherwise falls back to the most recent task. -/
theorem sendLoop_scan_char (lastTask : Option Task) (events : List A2AEvent)
    (exn : Option Exn) :
    CommonConn.sendLoop lastTask events exn =
      match events.find? earlyReturn with
      | some (A2AEvent.message m) => Except.ok (some (Sum.inr m))
      | some (A2AEvent.taskEvent t) => Except.ok (some (Sum.inl t))
      | none =>
        match exn with
        | some e => Except.error e
        | none =>
          Except.ok ((Option.or (events.filterMap taskOf).getLast? lastTask).map Sum.inl) := by
  induction events generalizing lastTask with
  | nil =>
    cases exn <;> simp [CommonConn.sendLoop]
  | cons ev rest ih =>
    cases ev with
    | message m =>
      simp [CommonConn.sendLoop, List.find?, earlyReturn]
    | taskEvent t =>
      by_cases h : CommonConn.is_terminal_or_interrupted t = true
      · have he : earlyReturn (A2AEvent.taskEvent t) = true := h
        simp [CommonConn.sendLoop, h, List.find?_cons_of_pos _ he]
      · have hf : CommonConn.is_terminal_or_interrupted t = false := by simpa using h
        have he : earlyReturn (A2AEvent.taskEvent t) = false := hf
        rw [CommonConn.sendLoop]
        simp only [hf, if_false, Bool.false_eq_true]
        rw [ih (some t), List.find?_cons_of_neg _ (by simp [he])]
        cases hfind : rest.find? earlyReturn with
        | some ev2 => cases ev2 <;> simp
        | none =>
          cases exn with
          | some e => simp
          | none =>
            simp only [List.filterMap_cons, taskOf]
            rw [getLast?_cons_or]
            cases hlast : (rest.filterMap taskOf).getLast? <;> simp [Option.or]

/-- Sample completed task used to exhibit the stream ordering behavior. -/
def taskCompletedSample : Task :=
  { id := "t1", context_id := none,
    status := { state := TaskState.completed, message := none },
    artifacts := none }

/-- Sample message used to exhibit the stream ordering behavior. -/
def messageSample : Message :=
  { role := Role.agent, parts := [], message_id := "m1",
    context_id := none, task_id := none }

/-- Counterexample to Claim C2 as stated: in the stream consisting of a
completed task event followed by a Message event, a Message event does
occur, yet send_message does not return that message; it returns the
earlier terminal task, because the loop stops at the first terminal task
event even when a Message event follows. -/
theorem c2_counterexample :
    (A2AEvent.message messageSample
       ∈ [A2AEvent.taskEvent taskCompletedSample, A2AEvent.message messageSample])
    ∧ CommonConn.send_message
        [A2AEvent.taskEvent taskCompletedSample, A2AEvent.message messageSample] none
        = Except.ok (some (Sum.inl taskCompletedSample))
    ∧ CommonConn.send_message
        [A2AEvent.taskEvent taskCompletedSample, A2AEvent.message messageSample] none
        ≠ Except.ok (some (Sum.inr messageSample)) := by
  refine ⟨by decide, rfl, ?_⟩
  have h : CommonConn.send_message
      [A2AEvent.taskEvent taskCompletedSample, A2AEvent.message messageSample] none
      = Except.ok (some (Sum.inl taskCompletedSample)) := rfl
  rw [h]
  simp

/-- Claim C2, amended: send_message scans the event stream in order and
returns at the first event that is a Message (returning the message
itself) or a task in a terminal or interrupted state (returning that
task); when no such event occurs it returns the last task seen, or None
when the stream yields no task; and when the underlying client raises
after the yielded events, the exception is re-raised unchanged. -/
theorem c2_amended_send_message_scan (events : List A2AEvent) (exn : Option Exn) :
    CommonConn.send_message events exn =
      match events.find? earlyReturn with
      | some (A2AEvent.message m) => Except.ok (some (Sum.inr m))
      | some (A2AEvent.taskEvent t) => Except.ok (some (Sum.inl t))
      | none =>
        match exn with
        | some e => Except.error e
        | none => Except.ok (((events.filterMap taskOf).getLast?).map Sum.inl) := by
  rw [CommonConn.send_message, sendLoop_scan_char]
  cases hfind : events.find? earlyReturn with
  | some ev => cases ev <;> simp
  | none =>
    cases exn with
    | some e => simp
    | none => cases hlast : (events.filterMap taskOf).getLast? <;> simp [Option.or]

/-
  AdkOrchestratorAgent
  (a2a-on-ae-multiagent-memorybank/.../common/adk_orchestrator_agent.py).
  The langgraph HostingAgent carries the same registries and the same
  bookkeeping block in its send_message tool.
-/

/-- AgentCard from a2a.types, restricted to the fields the orchestrator
reads. -/
structure AgentCard where
  name : String
  description : String
deriving DecidableEq

/-- A RemoteAgentConnections instance as stored in the registry: it is
built from the client factory and the card, and keeps the card. -/
structure RemoteConn where
  card : AgentCard
deriving DecidableEq

/-- The two registries of the orchestrator: remote_agent_connections and
cards, both Python dicts keyed by agent name, as association lists. The
derived agents summary string is presentation only and not modelled. -/
structure AdkOrchestratorAgent where
  remote_agent_connections : List (String × RemoteConn)
  cards : List (String × AgentCard)
deriving DecidableEq

/-- Python dict assignment d[k] = v: replace in place when the key is
present, append otherwise. -/
def dictInsert {α : Type} (l : List (String × α)) (k : String) (v : α) :
    List (String × α) :=
  if l.any (fun p => p.1 == k) then
    l.map (fun p => if p.1 == k then (k, v) else p)
  else l ++ [(k, v)]

/-- register_agent_card (lines 143-155): build a connection from the card
and store both the connection and the card under card.name. -/
def AdkOrchestratorAgent.register_agent_card (self : AdkOrchestratorAgent)
    (card : AgentCard) : AdkOrchestratorAgent :=
  let remote_connection : RemoteConn := { card := card }
  { self with
    remote_agent_connections :=
      dictInsert self.remote_agent_connections card.name remote_connection,
    cards := dictInsert self.cards card.name card }

/-- The tool_context.state dict, restricted to the keys send_message reads
or writes. -/
structure ToolState where
  agent : Option String
  task_id : Option String
  context_id : Option String
  message_id : Option String
  session_active : Option Bool
deriving DecidableEq

/-- The result of convert_part: a plain string for text parts, the data
payload for data parts, a DataPart carrying the artifact file id for file
parts, and the unknown-kind string otherwise. -/
inductive ConvertedPart where
  | text (s : String)
  | data (d : String)
  | fileRef (file_id : String)
  | unknown (s : String)
deriving DecidableEq

/-- convert_part (adk_orchestrator_agent.py lines 333-359), with the
base64 repackaging and artifact save of the file branch abstracted to the
returned artifact-file-id DataPart. -/
def convert_part : Part → ConvertedPart
  | Part.text t => ConvertedPart.text t
  | Part.data d => ConvertedPart.data d
  | Part.file name _bytes _mime => ConvertedPart.fileRef name
  | Part.other kind => ConvertedPart.unknown ("Unknown type: " ++ kind)

/-- convert_parts: convert each part in order. -/
def convert_parts (parts : List Part) : List ConvertedPart :=
  parts.map convert_part

/-- Errors the orchestrator send_message can raise: the explicit
ValueError raises, and the AttributeError hit when the remote connection
returns None and .status is read on it. -/
inductive OrcErr where
  | valueError (msg : String)
  | attributeError (msg : String)
deriving DecidableEq

/-- Decidable equality for Except, needed to evaluate outcomes on concrete
inputs. -/
instance exceptDecidableEq {ε α : Type} [DecidableEq ε] [DecidableEq α] :
    DecidableEq (Except ε α)
  | Except.ok x, Except.ok y =>
    if h : x = y then isTrue (by rw [h])
    else isFalse (by intro hc; injection hc; contradiction)
  | Except.ok _, Except.error _ => isFalse (by intro hc; cases hc)
  | Except.error _, Except.ok _ => isFalse (by intro hc; cases hc)
  | Except.error e, Except.error f =>
    if h : e = f then isTrue (by rw [h])
    else isFalse (by intro hc; injection hc; contradiction)

/-- Whether a result is a raised ValueError. -/
def isValueError {α : Type} : Except OrcErr α → Bool
  | Except.error (OrcErr.valueError _) => true
  | _ => false

/-- The observable outcome of one send_message call: the final state dict,
the connection the message was dispatched to (if the call got that far),
and the returned parts or the raised error. -/
structure OrcOutcome where
  state : ToolState
  used_client : Option RemoteConn
  result : Except OrcErr (List ConvertedPart)
deriving DecidableEq

/-- The request Message built by send_message: user role, a single text
part, the stored message_id when truthy (else the fresh uuid), and the
stored context_id and task_id. -/
def requestMessage (message : String) (state : ToolState) (fresh_id : String) :
    Message :=
  let message_id :=
    match state.message_id with
    | some m => if strTruthy m then m else fresh_id
    | none => fresh_id
  { role := Role.user,
    parts := [Part.text message],
    message_id := message_id,
    context_id := state.context_id,
    task_id := state.task_id }

/-- The list of states treated as ending the session in the bookkeeping
block (lines 285-295). -/
def sessionEndingStates : List TaskState :=
  [TaskState.completed, TaskState.canceled, TaskState.failed, TaskState.unknown]

/-- The task-state bookkeeping block of send_message (lines 285-295):
session_active becomes the negation of membership in the session-ending
states, context_id is overwritten only by a truthy task context_id, and
task_id becomes the task id. -/
def updateStateForTask (state1 : ToolState) (task : Task) : ToolState :=
  let state2 : ToolState := { state1 with
    session_active := some (!(sessionEndingStates.contains task.status.state)) }
  let state3 : ToolState :=
    if optStrTruthy task.context_id then { state2 with context_id := task.context_id }
    else state2
  { state3 with task_id := some task.id }

/-- AdkOrchestratorAgent.send_message (lines 241-315). The remote call is
the respond parameter (the connection and the built request determine the
reply: a Task, a Message, or None). The [if not client] guard of the source
is unreachable here because a value stored in the registry is never falsy.
-/
def AdkOrchestratorAgent.send_message (self : AdkOrchestratorAgent)
    (agent_name : String) (message : String) (state : ToolState)
    (fresh_id : String)
    (respond : RemoteConn → Message → Option (Task ⊕ Message)) : OrcOutcome :=
  match self.remote_agent_connections.lookup agent_name with
  | none =>
    { state := state, used_client := none,
      result := Except.error (OrcErr.valueError
        ("Agent " ++ agent_name ++ " not found")) }
  | some client =>
    let state1 : ToolState := { state with agent := some agent_name }
    let request := requestMessage message state1 fresh_id
    match respond client request with
    | none =>
      { state := state1, used_client := some client,
        result := Except.error (OrcErr.attributeError
          "NoneType object has no attribute status") }
    | some (Sum.inr response_message) =>
      { state := state1, used_client := some client,
        result := Except.ok (convert_parts response_message.parts) }
    | some (Sum.inl task) =>
      let state4 : ToolState := updateStateForTask state1 task
      if task.status.state == TaskState.canceled then
        { state := state4, used_client := some client,
          result := Except.error (OrcErr.valueError
            ("Agent " ++ agent_name ++ " task " ++ task.id ++ " is cancelled")) }
      else if task.status.state == TaskState.failed then
        { state := state4, used_client := some client,
          result := Except.error (OrcErr.valueError
            ("Agent " ++ agent_name ++ " task " ++ task.id ++ " failed")) }
      else
        let response1 : List ConvertedPart :=
          match task.status.message with
          | some m => convert_parts m.parts
          | none => []
        let response2 : List ConvertedPart :=
          match task.artifacts with
          | some artifacts =>
            artifacts.foldl (fun acc a => acc ++ convert_parts a.parts) response1
          | none => response1
        { state := state4, used_client := some client,
          result := Except.ok response2 }

/-- The state recorded in the outcome of a send_message call that received
a Task response is exactly the bookkeeping update applied to the state
with the agent key set. -/
theorem send_message_task_state (self : AdkOrchestratorAgent)
    (agent_name message : String) (state : ToolState) (fresh_id : String)
    (respond : RemoteConn → Message → Option (Task ⊕ Message))
    (client : RemoteConn) (task : Task)
    (hc : self.remote_agent_connections.lookup agent_name = some client)
    (hr : respond client
        (requestMessage message { state with agent := some agent_name } fresh_id)
        = some (Sum.inl task)) :
    (self.send_message agent_name message state fresh_id respond).state
      = updateStateForTask { state with agent := some agent_name } task := by
  simp only [AdkOrchestratorAgent.send_message, hc, hr]
  split
  · rfl
  · split
    · rfl
    · rfl

/-- Fields of the bookkeeping update. -/
theorem updateStateForTask_fields (state1 : ToolState) (task : Task) :
    (updateStateForTask state1 task).session_active
      = some (!(sessionEndingStates.contains task.status.state))
    ∧ (updateStateForTask state1 task).task_id = some task.id
    ∧ (optStrTruthy task.context_id = true →
        (updateStateForTask state1 task).context_id = task.context_id)
    ∧ (optStrTruthy task.context_id = false →
        (updateStateForTask state1 task).context_id = state1.context_id) := by
  refine ⟨?_, ?_, ?_, ?_⟩ <;>
    simp only [updateStateForTask] <;>
    by_cases h : optStrTruthy task.context_id = true <;>
    simp [h]

/-- Claim C3: whenever the remote connection answers a send_message call
with a Task, the final state has session_active equal to True exactly when
the task status state lies outside {completed, canceled, failed, unknown},
has task_id set to the task id, and has context_id overwritten by the task
context_id exactly when that context_id is truthy (non-None and
non-empty), otherwise left unchanged. -/
theorem c3_task_state_bookkeeping (self : AdkOrchestratorAgent)
    (agent_name message : String) (state : ToolState) (fresh_id : String)
    (respond : RemoteConn → Message → Option (Task ⊕ Message))
    (client : RemoteConn) (task : Task)
    (hc : self.remote_agent_connections.lookup agent_name = some client)
    (hr : respond client
        (requestMessage message { state with agent := some agent_name } fresh_id)
        = some (Sum.inl task)) :
    (self.send_message agent_name message state fresh_id respond).state.session_active
      = some (!(sessionEndingStates.contains task.status.state))
    ∧ ((self.send_message agent_name message state fresh_id respond).state.session_active
        = some true ↔ task.status.state ∉ sessionEndingStates)
    ∧ (self.send_message agent_name message state fresh_id respond).state.task_id
      = some task.id
    ∧ (optStrTruthy task.context_id = true →
        (self.send_message agent_name message state fresh_id respond).state.context_id
          = task.context_id)
    ∧ (optStrTruthy task.context_id = false →
        (self.send_message agent_name message state fresh_id respond).state.context_id
          = state.context_id) := by
  rw [send_message_task_state self agent_name message state fresh_id respond client task hc hr]
  obtain ⟨h1, h2, h3, h4⟩ :=
    updateStateForTask_fields { state with agent := some agent_name } task
  refine ⟨h1, ?_, h2, h3, h4⟩
  rw [h1]
  cases hts : task.status.state <;> simp [sessionEndingStates, hts]

/-- Empty tool state, as at the start of a fresh session. -/
def toolState0 : ToolState :=
  { agent := none, task_id := none, context_id := none,
    message_id := none, session_active := none }

/-- Sample registered card. -/
def cardW : AgentCard := { name := "WeatherAgent", description := "weather" }

/-- Second sample card, not yet registered. -/
def cardC : AgentCard := { name := "CocktailAgent", description := "drinks" }

/-- Orchestrator holding one registered remote agent. -/
def orcW : AdkOrchestratorAgent :=
  { remote_agent_connections := [("WeatherAgent", { card := cardW })],
    cards := [("WeatherAgent", cardW)] }

/-- Sample canceled task with a truthy context id. -/
def taskCanceledSample : Task :=
  { id := "t9", context_id := some "ctx9",
    status := { state := TaskState.canceled, message := none },
    artifacts := none }

/-- A remote connection that always answers with the canceled task. -/
def respondCanceled : RemoteConn → Message → Option (Task ⊕ Message) :=
  fun _ _ => some (Sum.inl taskCanceledSample)

/-- Witness for C3: dispatching to the registered agent and receiving the
canceled sample task records session_active false, the task id and the
task context id. -/
theorem c3_witness :
    orcW.remote_agent_connections.lookup "WeatherAgent" = some { card := cardW }
    ∧ (orcW.send_message "WeatherAgent" "hi" toolState0 "f1" respondCanceled).state.session_active
        = some false
    ∧ (orcW.send_message "WeatherAgent" "hi" toolState0 "f1" respondCanceled).state.task_id
        = some "t9"
    ∧ (orcW.send_message "WeatherAgent" "hi" toolState0 "f1" respondCanceled).state.context_id
        = some "ctx9" :=
  ⟨rfl,
   (c3_task_state_bookkeeping orcW "WeatherAgent" "hi" toolState0 "f1" respondCanceled
      { card := cardW } taskCanceledSample rfl rfl).1,
   (c3_task_state_bookkeeping orcW "WeatherAgent" "hi" toolState0 "f1" respondCanceled
      { card := cardW } taskCanceledSample rfl rfl).2.2.1,
   (c3_task_state_bookkeeping orcW "WeatherAgent" "hi" toolState0 "f1" respondCanceled
      { card := cardW } taskCanceledSample rfl rfl).2.2.2.1 rfl⟩

/-- Claim C4: send_message raises ValueError exactly when the agent name
is not registered, or the returned task is canceled, or the returned task
is failed; the unknown-agent raise happens before any state mutation;
Message responses return the converted parts; and every Task response
whose status is neither canceled nor failed returns normally. -/
theorem c4_value_error_cases (self : AdkOrchestratorAgent)
    (agent_name message : String) (state : ToolState) (fresh_id : String)
    (respond : RemoteConn → Message → Option (Task ⊕ Message)) :
    (isValueError (self.send_message agent_name message state fresh_id respond).result = true ↔
      (self.remote_agent_connections.lookup agent_name = none
       ∨ ∃ client task,
           self.remote_agent_connections.lookup agent_name = some client
           ∧ respond client
               (requestMessage message { state with agent := some agent_name } fresh_id)
               = some (Sum.inl task)
           ∧ (task.status.state = TaskState.canceled ∨ task.status.state = TaskState.failed)))
    ∧ (self.remote_agent_connections.lookup agent_name = none →
        (self.send_message agent_name message state fresh_id respond).state = state)
    ∧ (∀ client m, self.remote_agent_connections.lookup agent_name = some client →
        respond client
          (requestMessage message { state with agent := some agent_name } fresh_id)
          = some (Sum.inr m) →
        (self.send_message agent_name message state fresh_id respond).result
          = Except.ok (convert_parts m.parts))
    ∧ (∀ client task, self.remote_agent_connections.lookup agent_name = some client →
        respond client
          (requestMessage message { state with agent := some agent_name } fresh_id)
          = some (Sum.inl task) →
        task.status.state ≠ TaskState.canceled → task.status.state ≠ TaskState.failed →
        ∃ parts, (self.send_message agent_name message state fresh_id respond).result
          = Except.ok parts) := by
  refine ⟨?_, ?_, ?_, ?_⟩
  · cases hc : self.remote_agent_connections.lookup agent_name with
    | none =>
      simp [AdkOrchestratorAgent.send_message, hc, isValueError]
    | some client =>
      cases hr : respond client
          (requestMessage message { state with agent := some agent_name } fresh_id) with
      | none =>
        simp [AdkOrchestratorAgent.send_message, hc, hr, isValueError]
      | some s =>
        cases s with
        | inr m =>
          simp [AdkOrchestratorAgent.send_message, hc, hr, isValueError]
        | inl task =>
          by_cases h1 : task.status.state = TaskState.canceled
          · simp [AdkOrchestratorAgent.send_message, hc, hr, isValueError, h1]
          · by_cases h2 : task.status.state = TaskState.failed
            · simp [AdkOrchestratorAgent.send_message, hc, hr, isValueError, h1, h2]
            · simp [AdkOrchestratorAgent.send_message, hc, hr, isValueError, h1, h2]
  · intro hc
    simp [AdkOrchestratorAgent.send_message, hc]
  · intro client m hc hr
    simp [AdkOrchestratorAgent.send_message, hc, hr]
  · intro client task hc hr h1 h2
    simp only [AdkOrchestratorAgent.send_message, hc, hr]
    simp [h1, h2]

/-- Witness for C4: sending to the registered agent while the remote task
comes back canceled raises ValueError. -/
theorem c4_witness :
    isValueError (orcW.send_message "WeatherAgent" "hi" toolState0 "f1"
      respondCanceled).result = true :=
  (c4_value_error_cases orcW "WeatherAgent" "hi" toolState0 "f1" respondCanceled).1.mpr
    (Or.inr ⟨{ card := cardW }, taskCanceledSample, rfl, rfl, Or.inl rfl⟩)

/-- dictInsert walks past a head entry whose key differs. -/
theorem dictInsert_cons_ne {α : Type} (p : String × α) (t : List (String × α))
    (k : String) (v : α) (h : (p.1 == k) = false) :
    dictInsert (p :: t) k v = p :: dictInsert t k v := by
  have hne : ¬ p.1 = k := by simpa [beq_eq_false_iff_ne] using h
  by_cases ht : t.any (fun q => q.1 == k) = true
  · simp [dictInsert, List.any_cons, h, ht]
    exact fun hh => absurd hh hne
  · have ht2 : t.any (fun q => q.1 == k) = false := Bool.eq_false_iff.mpr ht
    simp [dictInsert, List.any_cons, h, ht2]

/-- Looking up the inserted key finds the inserted value. -/
theorem lookup_dictInsert {α : Type} (l : List (String × α)) (k : String) (v : α) :
    (dictInsert l k v).lookup k = some v := by
  induction l with
  | nil => simp [dictInsert, List.lookup]
  | cons p t ih =>
    by_cases h : (p.1 == k) = true
    · have hrepl : dictInsert (p :: t) k v
          = (k, v) :: t.map (fun q => if q.1 == k then (k, v) else q) := by
        simp [dictInsert, List.any_cons, h]
        exact fun hh => absurd (eq_of_beq h) hh
      rw [hrepl]
      simp [List.lookup]
    · have h2 : (p.1 == k) = false := by simpa using h
      rw [dictInsert_cons_ne p t k v h2]
      have h3 : (k == p.1) = false := by
        rw [beq_eq_false_iff_ne] at h2 ⊢
        exact fun hh => h2 hh.symm
      simp [List.lookup, h3, ih]

/-- Replacing the value at a key leaves the key list unchanged. -/
theorem keys_map_replace {α : Type} (l : List (String × α)) (k : String) (v : α) :
    (l.map (fun p => if p.1 == k then (k, v) else p)).map Prod.fst
      = l.map Prod.fst := by
  rw [List.map_map]
  apply List.map_congr_left
  intro p _
  by_cases h : (p.1 == k) = true
  · have := eq_of_beq h
    simp [Function.comp, h, this]
  · simp [Function.comp, h]

/-- The key list after dictInsert: unchanged when the key was present,
extended by the key otherwise. -/
theorem keys_dictInsert {α : Type} (l : List (String × α)) (k : String) (v : α) :
    (dictInsert l k v).map Prod.fst
      = if l.any (fun q => q.1 == k) then l.map Prod.fst
        else l.map Prod.fst ++ [k] := by
  by_cases h : l.any (fun q => q.1 == k) = true
  · simp only [dictInsert, h, if_true]
    exact keys_map_replace l k v
  · have h2 : l.any (fun q => q.1 == k) = false := Bool.eq_false_iff.mpr h
    simp [dictInsert, h2]

/-- Whether a key occurs in a dict depends only on the key list. -/
theorem any_key_eq_of_keys_eq {α β : Type} (l1 : List (String × α))
    (l2 : List (String × β)) (k : String)
    (h : l1.map Prod.fst = l2.map Prod.fst) :
    l1.any (fun q => q.1 == k) = l2.any (fun q => q.1 == k) := by
  induction l1 generalizing l2 with
  | nil =>
    cases l2 with
    | nil => rfl
    | cons q t2 => simp at h
  | cons p t1 ih =>
    cases l2 with
    | nil => simp at h
    | cons q t2 =>
      simp only [List.map_cons, List.cons.injEq] at h
      simp only [List.any_cons, h.1, ih t2 h.2]

/-- Claim C8: after register_agent_card, both registries hold an entry
under the card name (the connection built from the card, and the card);
registering preserves equality of the two key lists; and send_message
dispatches to exactly the connection stored under agent_name. -/
theorem c8_registry_consistent (self : AdkOrchestratorAgent) (card : AgentCard) :
    ((self.register_agent_card card).remote_agent_connections.lookup card.name)
      = some { card := card }
    ∧ ((self.register_agent_card card).cards.lookup card.name) = some card
    ∧ (self.remote_agent_connections.map Prod.fst = self.cards.map Prod.fst →
        (self.register_agent_card card).remote_agent_connections.map Prod.fst
          = (self.register_agent_card card).cards.map Prod.fst)
    ∧ (∀ agent_name message state fresh_id respond (client : RemoteConn),
        self.remote_agent_connections.lookup agent_name = some client →
        (self.send_message agent_name message state fresh_id respond).used_client
          = some client) := by
  refine ⟨?_, ?_, ?_, ?_⟩
  · exact lookup_dictInsert self.remote_agent_connections card.name { card := card }
  · exact lookup_dictInsert self.cards card.name card
  · intro hkeys
    simp only [AdkOrchestratorAgent.register_agent_card]
    rw [keys_dictInsert, keys_dictInsert,
      any_key_eq_of_keys_eq self.remote_agent_connections self.cards card.name hkeys,
      hkeys]
  · intro agent_name message state fresh_id respond client hc
    cases hr : respond client
        (requestMessage message { state with agent := some agent_name } fresh_id) with
    | none => simp [AdkOrchestratorAgent.send_message, hc, hr]
    | some s =>
      cases s with
      | inr m => simp [AdkOrchestratorAgent.send_message, hc, hr]
      | inl task =>
        simp only [AdkOrchestratorAgent.send_message, hc, hr]
        split
        · rfl
        · split
          · rfl
          · rfl

/-- Witness for C8: registering the cocktail card over the one-agent
orchestrator stores it in both registries with equal key lists, and the
weather dispatch uses the stored weather connection. -/
theorem c8_witness :
    ((orcW.register_agent_card cardC).remote_agent_connections.lookup "CocktailAgent")
      = some { card := cardC }
    ∧ (orcW.register_agent_card cardC).remote_agent_connections.map Prod.fst
        = (orcW.register_agent_card cardC).cards.map Prod.fst
    ∧ (orcW.send_message "WeatherAgent" "hi" toolState0 "f1" respondCanceled).used_client
        = some { card := cardW } :=
  ⟨(c8_registry_consistent orcW cardC).1,
   (c8_registry_consistent orcW cardC).2.2.1 rfl,
   (c8_registry_consistent orcW cardC).2.2.2 "WeatherAgent" "hi" toolState0 "f1"
     respondCanceled { card := cardW } rfl⟩

/-
  AdkBaseMcpAgentExecutor.execute
  (adk_base_mcp_agent_executor.py lines 343-421), modelled as the trace of
  TaskUpdater operations it issues. The ADK runner yields the events list
  and then, when exn is set, raises; an exception inside the try block
  (session creation or the event loop) is covered by truncating events and
  setting exn.
-/

/-- One TaskUpdater operation issued by execute. -/
inductive ExecAction where
  | submit
  | start_work
  | add_artifact (answer : String)
  | complete
  | update_failed (msg : String)
deriving DecidableEq

/-- One event of the ADK runner stream: whether is_final_response() holds,
and the optional text of each content part. -/
structure AdkEvent where
  final : Bool
  content_parts : List (Option String)
deriving DecidableEq

/-- _extract_answer (lines 453-459): the truthy texts joined by a space,
or the fallback answer. -/
def _extract_answer (event : AdkEvent) : String :=
  let text_parts := (event.content_parts.filterMap id).filter (fun t => strTruthy t)
  if text_parts.isEmpty then "No answer found." else String.intercalate " " text_parts

/-- The event loop of execute: on the first final response with
answer_sent still false, add the answer artifact and complete the task,
set answer_sent and keep consuming events. -/
def executeLoop (answer_sent : Bool) : List AdkEvent → List ExecAction
  | [] => []
  | e :: rest =>
    if e.final && !answer_sent then
      ExecAction.add_artifact (_extract_answer e) :: ExecAction.complete ::
        executeLoop true rest
    else
      executeLoop answer_sent rest

/-- AdkBaseMcpAgentExecutor.execute: submit only for a new task, then
start_work, then the event loop; an exception after start_work appends the
failed status update and is re-raised. The returned Option Exn is the
exception propagated to the caller. -/
def AdkBaseMcpAgentExecutor.execute (has_current_task : Bool)
    (events : List AdkEvent) (exn : Option Exn) :
    List ExecAction × Option Exn :=
  let pre := (if has_current_task then [] else [ExecAction.submit])
    ++ [ExecAction.start_work]
  let body := executeLoop false events
  match exn with
  | some e =>
    (pre ++ body ++ [ExecAction.update_failed ("Error: " ++ e)], some e)
  | none => (pre ++ body, none)

/-- getLast? of a list extended by one element. -/
theorem getLast?_append_singleton {α : Type} (l : List α) (a : α) :
    (l ++ [a]).getLast? = some a := by
  induction l with
  | nil => rfl
  | cons b t ih =>
    rw [List.cons_append, getLast?_cons_or, ih]
    rfl

/-- With answer_sent already true the loop issues nothing. -/
theorem executeLoop_sent (events : List AdkEvent) :
    executeLoop true events = [] := by
  induction events with
  | nil => rfl
  | cons e rest ih => simp [executeLoop, ih]

/-- The loop issues exactly one artifact-complete pair, at the first final
response, and nothing when no final response occurs. -/
theorem executeLoop_char (events : List AdkEvent) :
    executeLoop false events =
      match events.find? (fun e => e.final) with
      | some e => [ExecAction.add_artifact (_extract_answer e), ExecAction.complete]
      | none => [] := by
  induction events with
  | nil => rfl
  | cons e rest ih =>
    by_cases h : e.final = true
    · simp [executeLoop, h, List.find?_cons_of_pos, executeLoop_sent]
    · have h2 : e.final = false := Bool.eq_false_iff.mpr h
      rw [executeLoop]
      simp only [h2, Bool.false_and, if_false, Bool.false_eq_true]
      rw [List.find?_cons_of_neg _ (by simp [h2]), ih]

/-- Claim C6: execute issues submit exactly when the request context has
no current task and issues it first; start_work always follows
immediately; complete is issued exactly once when some final response
arrives and never otherwise (so at most once per run); and when an
exception occurs after start_work, the last issued action is the failed
status update carrying the error text and the same exception is
re-raised. -/
theorem c6_execute_lifecycle (has_current_task : Bool)
    (events : List AdkEvent) (exn : Option Exn) :
    (ExecAction.submit ∈ (AdkBaseMcpAgentExecutor.execute has_current_task events exn).1
      ↔ has_current_task = false)
    ∧ (has_current_task = true →
        (AdkBaseMcpAgentExecutor.execute has_current_task events exn).1.head?
          = some ExecAction.start_work)
    ∧ (has_current_task = false →
        (AdkBaseMcpAgentExecutor.execute has_current_task events exn).1.take 2
          = [ExecAction.submit, ExecAction.start_work])
    ∧ (AdkBaseMcpAgentExecutor.execute has_current_task events exn).1.count
        ExecAction.complete
      = (if events.any (fun e => e.final) then 1 else 0)
    ∧ (∀ e, exn = some e →
        (AdkBaseMcpAgentExecutor.execute has_current_task events exn).1.getLast?
          = some (ExecAction.update_failed ("Error: " ++ e))
        ∧ (AdkBaseMcpAgentExecutor.execute has_current_task events exn).2 = some e)
    ∧ (exn = none →
        (AdkBaseMcpAgentExecutor.execute has_current_task events exn).2 = none) := by
  have hbody := executeLoop_char events
  have hnosub : ExecAction.submit ∉ executeLoop false events := by
    rw [hbody]
    cases events.find? (fun e => e.final) <;> simp
  have hnocomp : ∀ e : Exn,
      ExecAction.complete ∉ [ExecAction.update_failed ("Error: " ++ e)] := by
    intro e
    simp
  have hcount : (executeLoop false events).count ExecAction.complete
      = (if events.any (fun e => e.final) then 1 else 0) := by
    rw [hbody]
    cases hfind : events.find? (fun e => e.final) with
    | some ev =>
      have : events.any (fun e => e.final) = true :=
        List.any_eq_true.mpr
          ⟨ev, List.mem_of_find?_eq_some hfind, List.find?_some hfind⟩
      simp [this, List.count_cons]
    | none =>
      have : events.any (fun e => e.final) = false := by
        rw [List.any_eq_false]
        intro ev hev
        have := List.find?_eq_none.mp hfind ev hev
        simpa using this
      simp [this]
  refine ⟨?_, ?_, ?_, ?_, ?_, ?_⟩
  · cases has_current_task <;> cases exn <;>
      simp [AdkBaseMcpAgentExecutor.execute, hnosub]
  · intro h
    cases exn <;> simp [AdkBaseMcpAgentExecutor.execute, h]
  · intro h
    cases exn <;> simp [AdkBaseMcpAgentExecutor.execute, h]
  · cases has_current_task <;> cases exn <;>
      simp [AdkBaseMcpAgentExecutor.execute, List.count_append, hcount,
        List.count_cons, List.count_nil]
  · intro e he
    subst he
    constructor
    · have hflat : (AdkBaseMcpAgentExecutor.execute has_current_task events (some e)).1
          = ((if has_current_task then [] else [ExecAction.submit])
              ++ ([ExecAction.start_work] ++ executeLoop false events))
            ++ [ExecAction.update_failed ("Error: " ++ e)] := by
        simp [AdkBaseMcpAgentExecutor.execute]
      rw [hflat, getLast?_append_singleton]
    · cases has_current_task <;> simp [AdkBaseMcpAgentExecutor.execute]
  · intro he
    subst he
    cases has_current_task <;> simp [AdkBaseMcpAgentExecutor.execute]

/-- Witness for C6: a new task whose run yields one non-final and one
final event and then raises ends with the failed update after exactly one
complete. -/
theorem c6_witness :
    (ExecAction.submit ∈ (AdkBaseMcpAgentExecutor.execute false
        [AdkEvent.mk false [], AdkEvent.mk true [some "hi"]] (some "boom")).1
      ↔ false = false)
    ∧ (AdkBaseMcpAgentExecutor.execute false
        [AdkEvent.mk false [], AdkEvent.mk true [some "hi"]] (some "boom")).1.take 2
      = [ExecAction.submit, ExecAction.start_work]
    ∧ (AdkBaseMcpAgentExecutor.execute false
        [AdkEvent.mk false [], AdkEvent.mk true [some "hi"]] (some "boom")).1.count
        ExecAction.complete = 1
    ∧ (AdkBaseMcpAgentExecutor.execute false
        [AdkEvent.mk false [], AdkEvent.mk true [some "hi"]] (some "boom")).1.getLast?
      = some (ExecAction.update_failed "Error: boom") := by
  obtain ⟨h1, _, h3, h4, h5, _⟩ := c6_execute_lifecycle false
    [AdkEvent.mk false [], AdkEvent.mk true [some "hi"]] (some "boom")
  exact ⟨h1, h3 rfl, h4, (h5 "boom" rfl).1⟩

end VertexAgents
